import Mathlib

/-!
Verification of the endzeit countdown utility (`src/src/main.rs`, with the
earlier plain variant in `src/main.rs`).

The Rust program is shallowly embedded below:
* machine integers (`u64`, `u32`) become `ℕ` (none of the modelled
  operations can overflow: `saturating_sub` is exactly `Nat` subtraction and
  the decomposition only divides);
* `f64` arithmetic in `get_progress_percentage` is modelled over `ℚ`
  (division, `min` and `* 100` are exact at all values the claims mention);
* strings handled by `parse_time` become `List Char`, with `split(':')`
  modelled by `List.splitOnP`; the rendered gauge label stays a `String`;
* fallible paths become `Except`/`Option`; `eprintln!` + `process::exit(1)`
  and `.expect(...)` panics become explicit outcome constructors;
* the interactive loop in `App::run` is driven by a script of per-tick
  observations (the value `is_finished` / `should_quit` would return);
  terminal draw/poll I/O errors are not modelled (no claim concerns them).
-/

/-- `struct TimeRemaining` of main.rs: the seven breakdown fields. -/
structure TimeRemaining where
  years : ℕ
  months : ℕ
  weeks : ℕ
  days : ℕ
  hours : ℕ
  minutes : ℕ
  seconds : ℕ
deriving DecidableEq, Repr

/-- The `remaining_seconds` computation at the top of
`App::get_remaining_time`: `(total as u64).saturating_sub(elapsed secs)`.
`Nat` subtraction is exactly `u64::saturating_sub`. -/
def remaining_seconds (total elapsed : ℕ) : ℕ :=
  total - elapsed

/-- `App::get_remaining_time` (decomposition part): successive division and
modulo of the remaining seconds, largest unit first, against the fixed
constants of the source (`SECONDS_IN_DAY * 365`, `SECONDS_IN_DAY * 30`,
`SECONDS_IN_WEEK = 604800`, `SECONDS_IN_DAY = 86400`,
`SECONDS_IN_HOUR = 3600`, `SECONDS_IN_MINUTE = 60`). -/
def get_remaining_time (remaining : ℕ) : TimeRemaining :=
  let SECONDS_IN_MINUTE : ℕ := 60
  let SECONDS_IN_HOUR : ℕ := 3600
  let SECONDS_IN_DAY : ℕ := 86400
  let SECONDS_IN_WEEK : ℕ := 604800
  let years := remaining / (SECONDS_IN_DAY * 365)
  let remaining_after_years := remaining % (SECONDS_IN_DAY * 365)
  let months := remaining_after_years / (SECONDS_IN_DAY * 30)
  let remaining_after_months := remaining_after_years % (SECONDS_IN_DAY * 30)
  let weeks := remaining_after_months / SECONDS_IN_WEEK
  let remaining_after_weeks := remaining_after_months % SECONDS_IN_WEEK
  let days := remaining_after_weeks / SECONDS_IN_DAY
  let remaining_after_days := remaining_after_weeks % SECONDS_IN_DAY
  let hours := remaining_after_days / SECONDS_IN_HOUR
  let remaining_after_hours := remaining_after_days % SECONDS_IN_HOUR
  let minutes := remaining_after_hours / SECONDS_IN_MINUTE
  let seconds := remaining_after_hours % SECONDS_IN_MINUTE
  ⟨years, months, weeks, days, hours, minutes, seconds⟩

/-- `App::get_progress_percentage`: `if total > 0 { min(elapsed/total, 1) * 100 }
else { 100 }`, over `ℚ` in place of `f64`. -/
def get_progress_percentage (elapsed total : ℚ) : ℚ :=
  if 0 < total then min (elapsed / total) 1 * 100 else 100

/-- The deadline check in `main`: `if target_datetime <= now` the program
prints "Target date/time must be in the future" to stderr and exits with
code 1 before the loop starts; otherwise it proceeds.  Datetimes are placed
on an integer timeline (seconds); `Except.error` stands for the
diagnostic-plus-`exit(1)` path. -/
def deadline_gate (target now : ℤ) : Except String Unit :=
  if target ≤ now then Except.error "Target date/time must be in the future"
  else Except.ok ()

/-- C1: for every non-negative remaining-seconds input the decomposition is
by successive division/modulo against YEAR = 365*86400, MONTH = 30*86400,
WEEK = 7*86400, DAY = 86400, HOUR = 3600, MINUTE = 60 (this is
`get_remaining_time` as defined); `decompose 90000` is one day and one
hour; and every result satisfies `minutes < 60`, `hours < 24`, `days < 7`. -/
theorem get_remaining_time_bounds_and_90000 (r : ℕ) :
    (get_remaining_time r).minutes < 60
    ∧ (get_remaining_time r).hours < 24
    ∧ (get_remaining_time r).days < 7
    ∧ get_remaining_time 90000 = ⟨0, 0, 0, 1, 1, 0, 0⟩ := by
  refine ⟨?_, ?_, ?_, ?_⟩
  · simp only [get_remaining_time]
    omega
  · simp only [get_remaining_time]
    omega
  · simp only [get_remaining_time]
    omega
  · decide

/-- C9: the decomposition is lossless — the weighted sum of the seven
fields recovers the input exactly. -/
theorem get_remaining_time_lossless (R : ℕ) :
    (get_remaining_time R).years * 31536000
    + (get_remaining_time R).months * 2592000
    + (get_remaining_time R).weeks * 604800
    + (get_remaining_time R).days * 86400
    + (get_remaining_time R).hours * 3600
    + (get_remaining_time R).minutes * 60
    + (get_remaining_time R).seconds = R := by
  simp only [get_remaining_time]
  omega

/-- C8: the remaining duration is total minus elapsed floored at 0 — as an
integer it equals `max (total - elapsed) 0`, hence never negative and with
no underflow. -/
theorem remaining_seconds_is_floored_sub (total elapsed : ℕ) :
    (remaining_seconds total elapsed : ℤ)
      = max ((total : ℤ) - (elapsed : ℤ)) 0
    ∧ (remaining_seconds total elapsed + elapsed) = max total elapsed := by
  simp only [remaining_seconds]
  omega

/-- C4: the percentage is always within [0, 100] (for the non-negative
elapsed values an `Instant` produces); it is 100 whenever total ≤ 0 and
`min (elapsed/total) 1 * 100` otherwise; and the four concrete contract
values hold. -/
theorem get_progress_percentage_bounds (elapsed total : ℚ)
    (he : 0 ≤ elapsed) :
    (0 ≤ get_progress_percentage elapsed total
      ∧ get_progress_percentage elapsed total ≤ 100)
    ∧ (total ≤ 0 → get_progress_percentage elapsed total = 100)
    ∧ (0 < total →
        get_progress_percentage elapsed total = min (elapsed / total) 1 * 100)
    ∧ get_progress_percentage 0 100 = 0
    ∧ get_progress_percentage 100 100 = 100
    ∧ get_progress_percentage 50 0 = 100
    ∧ get_progress_percentage 150 100 = 100 := by
  unfold get_progress_percentage
  refine ⟨?_, ?_, ?_, by norm_num, by norm_num, by norm_num, by norm_num⟩
  · split
    · rename_i ht
      constructor
      · have h1 : 0 ≤ elapsed / total := div_nonneg he (le_of_lt ht)
        have : (0 : ℚ) ≤ min (elapsed / total) 1 := le_min h1 (by norm_num)
        nlinarith
      · have : min (elapsed / total) 1 ≤ 1 := min_le_right _ _
        nlinarith
    · norm_num
  · intro hle
    rw [if_neg (by linarith)]
  · intro hlt
    rw [if_pos hlt]

/-- Witness for `get_progress_percentage_bounds` at elapsed = 50,
total = 200. -/
theorem get_progress_percentage_bounds_witness :
    (0 ≤ get_progress_percentage 50 200
      ∧ get_progress_percentage 50 200 ≤ 100)
    ∧ ((200 : ℚ) ≤ 0 → get_progress_percentage 50 200 = 100)
    ∧ ((0 : ℚ) < 200 →
        get_progress_percentage 50 200 = min ((50 : ℚ) / 200) 1 * 100)
    ∧ get_progress_percentage 0 100 = 0
    ∧ get_progress_percentage 100 100 = 100
    ∧ get_progress_percentage 50 0 = 100
    ∧ get_progress_percentage 150 100 = 100 :=
  get_progress_percentage_bounds 50 200 (by norm_num)

/-- C5: the deadline gate accepts exactly the strictly-future targets: a
target ≤ now takes the diagnostic-and-exit-nonzero path, while a target
even one second in the future is accepted. -/
theorem deadline_gate_strict (target now : ℤ) :
    (deadline_gate target now = Except.ok () ↔ now < target)
    ∧ deadline_gate now now
        = Except.error "Target date/time must be in the future"
    ∧ deadline_gate (now + 1) now = Except.ok () := by
  unfold deadline_gate
  refine ⟨?_, by simp, by simp⟩
  constructor
  · intro h
    by_contra hc
    rw [if_pos (by omega)] at h
    exact Except.noConfusion h
  · intro h
    rw [if_neg (by omega)]

/-- One tick's observations inside the loop of `App::run`: what
`is_finished` returns (elapsed >= total at that tick) and what
`should_quit` returns (a 'q' key was polled). -/
structure Tick where
  finished : Bool
  quit : Bool
deriving DecidableEq, Repr

/-- How the loop in `App::run` exits: via the `is_finished` break
(COMPLETED) or via the `should_quit` break (CANCELLED). -/
inductive LoopExit where
  | completed
  | cancelled
deriving DecidableEq, Repr

/-- The loop of `App::run`: each iteration draws, breaks if finished,
breaks if quit, else sleeps and repeats.  `none` means the script ended
before the loop did. -/
def runLoop : List Tick → Option LoopExit
  | [] => none
  | t :: rest =>
    if t.finished then some LoopExit.completed
    else if t.quit then some LoopExit.cancelled
    else runLoop rest

/-- The fate of the spawn in `execute_file`: either `Command::status()`
returned a spawn error, or the child ran and exited with the given code. -/
inductive SpawnOutcome where
  | spawnError (msg : String)
  | exited (code : ℤ)
deriving DecidableEq, Repr

/-- `execute_file`: `Command::new(shell).args(...).status()?; Ok(())` — a
spawn error propagates via `?`; the child's exit status is discarded and
`Ok(())` is returned even when the child exited non-zero. -/
def execute_file (o : SpawnOutcome) : Except String Unit :=
  match o with
  | SpawnOutcome.spawnError e => Except.error e
  | SpawnOutcome.exited _ => Except.ok ()

/-- `App::handle_completion`: if a command is configured, run
`execute_file` and print "Failed to execute file: ..." to stderr on `Err`.
Returns whether that stderr report was printed. -/
def handle_completion (execute_command : Option String)
    (o : SpawnOutcome) : Bool :=
  match execute_command with
  | none => false
  | some _ =>
    match execute_file o with
    | Except.ok _ => false
    | Except.error _ => true

/-- Everything observable about one terminated `App::run` call. -/
structure RunOutcome where
  exit : LoopExit
  handler_invocations : ℕ
  command_executed : Bool
  reported_stderr : Bool
  returned_ok : Bool
deriving DecidableEq, Repr

/-- `App::run`: run the loop on the tick script; when it terminates (by
either break) the source calls `self.handle_completion()` once,
unconditionally, and then returns `Ok(())`.  `execute_file` is invoked
exactly when a command is configured. -/
def App.run (script : List Tick) (execute_command : Option String)
    (o : SpawnOutcome) : Option RunOutcome :=
  match runLoop script with
  | none => none
  | some e =>
    some ⟨e, 1, execute_command.isSome, handle_completion execute_command o,
      true⟩

/-- C3 (evaluation at the failing input): when the user's quit key is
observed before the deadline, the loop exits CANCELLED and yet
`handle_completion` is still invoked (once) and the configured command is
still executed — `App::run` calls `handle_completion` unconditionally
after the loop; on natural completion it is likewise invoked exactly
once. -/
theorem app_run_invokes_handler_on_cancel :
    App.run [⟨false, true⟩] (some "notify-send done") (SpawnOutcome.exited 0)
      = some ⟨LoopExit.cancelled, 1, true, false, true⟩
    ∧ App.run [⟨true, false⟩] (some "notify-send done")
        (SpawnOutcome.exited 0)
      = some ⟨LoopExit.completed, 1, true, false, true⟩ := by
  exact ⟨rfl, rfl⟩

/-- C6 (counterexample): a completion command that spawns but exits
non-zero (exit code 1) is NOT reported to stderr — `execute_file` discards
the child's exit status — contradicting the claim that it is "likewise
reported". -/
theorem handle_completion_silent_on_nonzero_exit :
    handle_completion (some "some-command") (SpawnOutcome.exited 1)
      = false := by
  exact rfl

/-- C6 (amended): whenever `App::run` terminates, it returns success
regardless of the completion command's fate; a stderr failure report is
printed exactly when the spawn itself failed, and a command that spawned
but exited non-zero is silently ignored. -/
theorem app_run_exit_status_and_reporting (script : List Tick)
    (cmd : String) (o : SpawnOutcome) (out : RunOutcome)
    (h : App.run script (some cmd) o = some out) :
    out.returned_ok = true
    ∧ out.command_executed = true
    ∧ (out.reported_stderr = true ↔ ∃ m, o = SpawnOutcome.spawnError m) := by
  unfold App.run at h
  cases hr : runLoop script with
  | none => rw [hr] at h; exact Option.noConfusion h
  | some e =>
    rw [hr] at h
    cases h
    refine ⟨rfl, rfl, ?_⟩
    cases o with
    | spawnError m =>
      simp [handle_completion, execute_file]
    | exited c =>
      simp [handle_completion, execute_file]

/-- Witness for `app_run_exit_status_and_reporting`: a completed run whose
command failed to spawn. -/
theorem app_run_exit_status_and_reporting_witness :
    (⟨LoopExit.completed, 1, true, true, true⟩ : RunOutcome).returned_ok
        = true
    ∧ (⟨LoopExit.completed, 1, true, true, true⟩
        : RunOutcome).command_executed = true
    ∧ ((⟨LoopExit.completed, 1, true, true, true⟩
          : RunOutcome).reported_stderr = true
        ↔ ∃ m, SpawnOutcome.spawnError "boom" = SpawnOutcome.spawnError m) :=
  app_run_exit_status_and_reporting [⟨true, false⟩] "cmd"
    (SpawnOutcome.spawnError "boom") ⟨LoopExit.completed, 1, true, true, true⟩
    (by decide)

/-- The numeric value of a digit string (most significant first). -/
def digitsVal (cs : List Char) : ℕ :=
  cs.foldl (fun a c => 10 * a + (c.toNat - 48)) 0

/-- `u32::from_str` over the characters of the component: an optional
leading '+' sign, then a non-empty run of ASCII digits; the value must
fit in a `u32`.  A '-' sign is only stripped for signed types
(`is_signed_ty` in `from_str_radix`), so for `u32` a '-'-prefixed string
falls through to the digit scan and fails on the '-' itself. -/
def u32_from_str (cs : List Char) : Option ℕ :=
  let core : List Char → Option ℕ := fun ds =>
    if ds ≠ [] ∧ ds.all Char.isDigit then some (digitsVal ds) else none
  match cs with
  | '+' :: rest =>
    (core rest).bind fun v => if v < 4294967296 then some v else none
  | _ => (core cs).bind fun v => if v < 4294967296 then some v else none

/-- The `match parts.len()` body of `parse_time`: 3 parts parse
hour/minute/second, 2 parts default seconds to 0, 1 part defaults minutes
and seconds to 0, anything else is a format error; each failed component
conversion yields its own error message. -/
def parse_time_parts (parts : List (List Char)) : Except String (ℕ × ℕ × ℕ) :=
  match parts with
  | [a, b, c] =>
    match u32_from_str a with
    | none => Except.error "Invalid hour"
    | some hours =>
      match u32_from_str b with
      | none => Except.error "Invalid minute"
      | some minutes =>
        match u32_from_str c with
        | none => Except.error "Invalid second"
        | some seconds => Except.ok (hours, minutes, seconds)
  | [a, b] =>
    match u32_from_str a with
    | none => Except.error "Invalid hour"
    | some hours =>
      match u32_from_str b with
      | none => Except.error "Invalid minute"
      | some minutes => Except.ok (hours, minutes, 0)
  | [a] =>
    match u32_from_str a with
    | none => Except.error "Invalid hour"
    | some hours => Except.ok (hours, 0, 0)
  | _ => Except.error "Invalid time format, use HH[:MM[:SS]]"

/-- `parse_time`: split the input on ':' and dispatch on the number of
parts. -/
def parse_time (time : List Char) : Except String (ℕ × ℕ × ℕ) :=
  parse_time_parts (time.splitOnP (· == ':'))

/-- `chrono::NaiveDate`, opaque to the countdown logic. -/
structure Date where
  year : ℤ
  month : ℕ
  day : ℕ
deriving DecidableEq, Repr

/-- `chrono::NaiveDateTime`: a date plus a time of day. -/
structure DateTime where
  date : Date
  hour : ℕ
  minute : ℕ
  second : ℕ
deriving DecidableEq, Repr

/-- `NaiveDate::and_hms_opt`: `Some` exactly when the components form a
valid time of day (hour ≤ 23, minute ≤ 59, second ≤ 59). -/
def Date.and_hms_opt (d : Date) (hour minute second : ℕ) : Option DateTime :=
  if hour ≤ 23 ∧ minute ≤ 59 ∧ second ≤ 59 then
    some ⟨d, hour, minute, second⟩
  else none

/-- How `validate_datetime` can come out: a valid datetime, the
`eprintln!` + `exit(1)` path taken on a parse error, or the
`.expect("Invalid time")` panic when `and_hms_opt` returns `None`. -/
inductive ValidateOutcome where
  | ok (dt : DateTime)
  | exitNonZero (msg : String)
  | panic (msg : String)
deriving DecidableEq, Repr

/-- `validate_datetime` of `src/src/main.rs`: with a time string, parse it
and combine with the date via `and_hms_opt(..).expect("Invalid time")`;
on a parse error print it and exit 1; with no time string return `now`. -/
def validate_datetime (date : Date) (now : DateTime)
    (time : Option (List Char)) : ValidateOutcome :=
  match time with
  | some t =>
    match parse_time t with
    | Except.ok (hours, minutes, seconds) =>
      match date.and_hms_opt hours minutes seconds with
      | some dt => ValidateOutcome.ok dt
      | none => ValidateOutcome.panic "Invalid time"
    | Except.error err => ValidateOutcome.exitNonZero err
  | none => ValidateOutcome.ok now

lemma exists_lt_one_iff (P : ℕ → Prop) : (∃ i, i < 1 ∧ P i) ↔ P 0 := by
  constructor
  · rintro ⟨i, hi, hp⟩
    interval_cases i
    exact hp
  · intro h
    exact ⟨0, by omega, h⟩

lemma exists_lt_two_iff (P : ℕ → Prop) :
    (∃ i, i < 2 ∧ P i) ↔ P 0 ∨ P 1 := by
  constructor
  · rintro ⟨i, hi, hp⟩
    interval_cases i <;> tauto
  · rintro (h | h)
    exacts [⟨0, by omega, h⟩, ⟨1, by omega, h⟩]

lemma exists_lt_three_iff (P : ℕ → Prop) :
    (∃ i, i < 3 ∧ P i) ↔ P 0 ∨ P 1 ∨ P 2 := by
  constructor
  · rintro ⟨i, hi, hp⟩
    interval_cases i <;> tauto
  · rintro (h | h | h)
    exacts [⟨0, by omega, h⟩, ⟨1, by omega, h⟩, ⟨2, by omega, h⟩]

lemma except_isOk_ok {ε α : Type} (a : α) :
    (Except.ok a : Except ε α).isOk = true := rfl

lemma except_isOk_error {ε α : Type} (e : ε) :
    (Except.error e : Except ε α).isOk = false := rfl

/-- For any non-empty parts list (a split always yields one), the match
body errs exactly when there are more than 3 parts or some present
component fails `u32::from_str`. -/
lemma parse_time_parts_isOk_false_iff (parts : List (List Char))
    (hne : parts ≠ []) :
    (parse_time_parts parts).isOk = false ↔
      3 < parts.length
      ∨ ∃ i, i < parts.length ∧ u32_from_str (parts.getD i []) = none := by
  match parts with
  | [] => exact absurd rfl hne
  | [a] =>
    cases hu : u32_from_str a <;>
      simp [parse_time_parts, hu, exists_lt_one_iff, except_isOk_ok, except_isOk_error]
  | [a, b] =>
    cases hu : u32_from_str a <;> cases hv : u32_from_str b <;>
      simp [parse_time_parts, hu, hv, exists_lt_two_iff, except_isOk_ok, except_isOk_error]
  | [a, b, c] =>
    cases hu : u32_from_str a <;> cases hv : u32_from_str b <;>
        cases hw : u32_from_str c <;>
      simp [parse_time_parts, hu, hv, hw, exists_lt_three_iff, except_isOk_ok, except_isOk_error]
  | a :: b :: c :: d :: rest =>
    simp only [parse_time_parts, List.length_cons]
    constructor
    · intro _
      left
      omega
    · intro _
      rfl

/-- Defaulting of missing components in the `match parts.len()` body: two
parts force seconds = 0, one part forces minutes = seconds = 0. -/
lemma parse_time_parts_defaults (parts : List (List Char)) (h m s : ℕ)
    (hok : parse_time_parts parts = Except.ok (h, m, s)) :
    (parts.length = 2 → s = 0) ∧ (parts.length = 1 → m = 0 ∧ s = 0) := by
  match parts with
  | [] => exact Except.noConfusion hok
  | [a] =>
    refine ⟨fun hlen => by simp at hlen, fun _ => ?_⟩
    cases hu : u32_from_str a <;>
      simp only [parse_time_parts] at hok <;> rw [hu] at hok
    · exact Except.noConfusion hok
    · simp only [Except.ok.injEq, Prod.mk.injEq] at hok
      exact ⟨hok.2.1.symm, hok.2.2.symm⟩
  | [a, b] =>
    refine ⟨fun _ => ?_, fun hlen => by simp at hlen⟩
    cases hu : u32_from_str a <;>
      simp only [parse_time_parts] at hok <;> rw [hu] at hok
    · exact Except.noConfusion hok
    · cases hv : u32_from_str b <;> rw [hv] at hok
      · exact Except.noConfusion hok
      · simp only [Except.ok.injEq, Prod.mk.injEq] at hok
        exact hok.2.2.symm
  | [a, b, c] =>
    exact ⟨fun hlen => by simp at hlen, fun hlen => by simp at hlen⟩
  | a :: b :: c :: d :: rest =>
    exact ⟨fun hlen => by simp at hlen, fun hlen => by simp at hlen⟩

/-- C7: `parse_time` errs exactly when the input splits on ':' into more
than 3 parts or a present component fails `u32::from_str`; with 2 parts
seconds default to 0 and with 1 part minutes and seconds default to 0; and
any such error makes `validate_datetime` take the
diagnostic-plus-exit-nonzero path with that message, before any loop
runs. -/
theorem parse_time_error_characterisation (time : List Char) :
    ((parse_time time).isOk = false ↔
      3 < (time.splitOnP (· == ':')).length
      ∨ ∃ i, i < (time.splitOnP (· == ':')).length
          ∧ u32_from_str ((time.splitOnP (· == ':')).getD i []) = none)
    ∧ (∀ h m s, parse_time time = Except.ok (h, m, s) →
        ((time.splitOnP (· == ':')).length = 2 → s = 0)
        ∧ ((time.splitOnP (· == ':')).length = 1 → m = 0 ∧ s = 0))
    ∧ (∀ msg, parse_time time = Except.error msg →
        ∀ d now, validate_datetime d now (some time)
          = ValidateOutcome.exitNonZero msg) := by
  refine ⟨?_, ?_, ?_⟩
  · exact parse_time_parts_isOk_false_iff _ (List.splitOnP_ne_nil _ _)
  · intro h m s hok
    exact parse_time_parts_defaults _ h m s hok
  · intro msg herr d now
    simp only [validate_datetime]
    rw [herr]

/-- Witness for `parse_time_error_characterisation` at the single-part
input "7": it parses successfully as (7, 0, 0), so minutes and seconds
default to 0. -/
theorem parse_time_error_characterisation_witness :
    ((['7'].splitOnP (· == ':')).length = 2 → (0 : ℕ) = 0)
    ∧ ((['7'].splitOnP (· == ':')).length = 1 → (0 : ℕ) = 0 ∧ (0 : ℕ) = 0) :=
  (parse_time_error_characterisation ['7']).2.1 7 0 0 rfl

/-- C10: the panic branch of `validate_datetime` is reachable through an
input `parse_time` accepts: "25:00" parses to (25, 0, 0), but
`and_hms_opt` rejects hour 25, so the `.expect("Invalid time")` panics
instead of taking the diagnostic-plus-exit path. -/
theorem validate_datetime_panic_reachable (d : Date) (now : DateTime) :
    parse_time ['2', '5', ':', '0', '0'] = Except.ok (25, 0, 0)
    ∧ validate_datetime d now (some ['2', '5', ':', '0', '0'])
        = ValidateOutcome.panic "Invalid time" := by
  constructor
  · rfl
  · simp only [validate_datetime]
    rw [show parse_time ['2', '5', ':', '0', '0'] = Except.ok (25, 0, 0)
      from rfl]
    simp [Date.and_hms_opt]

/-- The label construction in `App::render_gauge`: starting from an empty
string, each unit conditionally pushes "<n><suffix> "; the source guards
months through minutes with
`(unit > 0 && time_string.is_empty()) || (!time_string.is_empty() && unit > 0)`
and seconds with `seconds > 0 || !time_string.is_empty()`
(`is_empty()` is modelled as equality with `""`). -/
def formatTimeString (t : TimeRemaining) : String :=
  let s : String := ""
  let s := if 0 < t.years then s ++ (toString t.years ++ "y ") else s
  let s := if (0 < t.months ∧ s = "") ∨ (¬s = "" ∧ 0 < t.months) then
    s ++ (toString t.months ++ "m ") else s
  let s := if (0 < t.weeks ∧ s = "") ∨ (¬s = "" ∧ 0 < t.weeks) then
    s ++ (toString t.weeks ++ "w ") else s
  let s := if (0 < t.days ∧ s = "") ∨ (¬s = "" ∧ 0 < t.days) then
    s ++ (toString t.days ++ "d ") else s
  let s := if (0 < t.hours ∧ s = "") ∨ (¬s = "" ∧ 0 < t.hours) then
    s ++ (toString t.hours ++ "h ") else s
  let s := if (0 < t.minutes ∧ s = "") ∨ (¬s = "" ∧ 0 < t.minutes) then
    s ++ (toString t.minutes ++ "m ") else s
  if 0 < t.seconds ∨ ¬s = "" then s ++ (toString t.seconds ++ "s") else s

/-- The concatenation of the six larger-unit fragments, each present
exactly when its unit is non-zero (what the render actually does). -/
def renderPrefixSix (t : TimeRemaining) : String :=
  (if 0 < t.years then toString t.years ++ "y " else "")
  ++ (if 0 < t.months then toString t.months ++ "m " else "")
  ++ (if 0 < t.weeks then toString t.weeks ++ "w " else "")
  ++ (if 0 < t.days then toString t.days ++ "d " else "")
  ++ (if 0 < t.hours then toString t.hours ++ "h " else "")
  ++ (if 0 < t.minutes then toString t.minutes ++ "m " else "")

/-- The amended formatting policy, phrased from the spec's vocabulary:
every unit from years down to minutes is rendered exactly when non-zero
(zero units are suppressed even between non-zero ones), and seconds is
rendered when non-zero or when any larger unit rendered. -/
def renderSpec (t : TimeRemaining) : String :=
  renderPrefixSix t
  ++ (if 0 < t.seconds ∨ 0 < t.years ∨ 0 < t.months ∨ 0 < t.weeks
        ∨ 0 < t.days ∨ 0 < t.hours ∨ 0 < t.minutes then
      toString t.seconds ++ "s" else "")

lemma cond_simp (p q : Prop) : ((p ∧ q) ∨ (¬q ∧ p)) ↔ p := by tauto

lemma ite_append_pull (c : Prop) [Decidable c] (s x : String) :
    (if c then s ++ x else s) = s ++ (if c then x else "") := by
  split <;> simp [String.append_empty]

lemma str_append_eq_empty_iff (a b : String) :
    a ++ b = "" ↔ a = "" ∧ b = "" := by
  constructor
  · intro h
    have hd : a.data ++ b.data = [] := by
      simpa [String.data_append] using congrArg String.data h
    obtain ⟨ha, hb⟩ := List.append_eq_nil.mp hd
    exact ⟨String.ext ha, String.ext hb⟩
  · rintro ⟨rfl, rfl⟩
    rfl

lemma unit_piece_empty_iff (n : ℕ) (u : String) (hu : ¬u = "") :
    ((if 0 < n then toString n ++ u else "") = "") ↔ n = 0 := by
  split
  · rename_i h
    constructor
    · intro hc
      exact absurd ((str_append_eq_empty_iff _ _).mp hc).2 hu
    · omega
  · rename_i h
    constructor
    · intro _
      omega
    · intro _
      rfl

lemma renderPrefixSix_eq_empty_iff (t : TimeRemaining) :
    renderPrefixSix t = "" ↔
      t.years = 0 ∧ t.months = 0 ∧ t.weeks = 0 ∧ t.days = 0
      ∧ t.hours = 0 ∧ t.minutes = 0 := by
  unfold renderPrefixSix
  rw [str_append_eq_empty_iff, str_append_eq_empty_iff,
    str_append_eq_empty_iff, str_append_eq_empty_iff,
    str_append_eq_empty_iff,
    unit_piece_empty_iff _ _ (by decide), unit_piece_empty_iff _ _ (by decide),
    unit_piece_empty_iff _ _ (by decide), unit_piece_empty_iff _ _ (by decide),
    unit_piece_empty_iff _ _ (by decide), unit_piece_empty_iff _ _ (by decide)]
  tauto

lemma formatTimeString_mid (t : TimeRemaining) :
    formatTimeString t =
      if 0 < t.seconds ∨ ¬renderPrefixSix t = "" then
        renderPrefixSix t ++ (toString t.seconds ++ "s")
      else renderPrefixSix t := by
  unfold formatTimeString renderPrefixSix
  simp only [cond_simp, ite_append_pull, String.empty_append]

/-- C2 (counterexample): the breakdown {days 2, hours 0, minutes 5,
seconds 3} does NOT render as "2d 0h 5m 3s" — the zero hours unit is
suppressed even though a larger unit (days) was emitted. -/
theorem formatTimeString_drops_zero_units :
    formatTimeString ⟨0, 0, 0, 2, 0, 5, 3⟩ ≠ "2d 0h 5m 3s"
    ∧ formatTimeString ⟨0, 0, 0, 2, 0, 5, 3⟩ = "2d 5m 3s"
    ∧ formatTimeString ⟨0, 0, 0, 0, 0, 0, 0⟩ = "" := by
  refine ⟨by decide, by decide, by decide⟩

/-- C2 (amended): the render emits each unit from years down to minutes
exactly when it is non-zero — a zero unit is suppressed even below an
emitted larger unit — and emits seconds when seconds is non-zero or any
larger unit was emitted (so the all-zero breakdown renders as the empty
string, not "0s"); concretely {days 2, minutes 5, seconds 3} renders
"2d 5m 3s" and {seconds 7} renders "7s". -/
theorem formatTimeString_characterisation (t : TimeRemaining) :
    formatTimeString t = renderSpec t
    ∧ formatTimeString ⟨0, 0, 0, 2, 0, 5, 3⟩ = "2d 5m 3s"
    ∧ formatTimeString ⟨0, 0, 0, 0, 0, 0, 7⟩ = "7s"
    ∧ formatTimeString ⟨0, 0, 0, 0, 0, 0, 0⟩ = "" := by
  refine ⟨?_, by decide, by decide, by decide⟩
  rw [formatTimeString_mid]
  unfold renderSpec
  rw [ite_append_pull]
  have hiff : (0 < t.seconds ∨ ¬renderPrefixSix t = "") ↔
      (0 < t.seconds ∨ 0 < t.years ∨ 0 < t.months ∨ 0 < t.weeks
        ∨ 0 < t.days ∨ 0 < t.hours ∨ 0 < t.minutes) := by
    rw [renderPrefixSix_eq_empty_iff]
    omega
  rw [if_congr hiff rfl rfl]
